import Mathlib

/-!
Verification of the retrieval-orchestration and context-assembly pipeline of
the Shakespeare RAG chatbot (`shakespeare_ai.py`, `shakespeare_search.py`,
`shakespeare_semantic.py`, `shakespeare_core.py`).

Modelling conventions:
* Python floats (relevance scores, distances) are modelled as rationals.
* Python `None` is `Option.none`; a dictionary key that may be absent is an
  `Option`-valued field.
* A remote call that may raise is modelled by an `Option`-valued response
  (`none` = the call raised, or returned no usable content); a Python
  `TypeError` raised inside a pipeline function is modelled by `Except.error`.
* Python string operations (`strip`, `lower`, `split`, `in`) are implemented
  over the character list of the string so that they compute by `decide`.
* Fractional constants are written as raw `Rat.mk'` literals so that kernel
  reduction of comparisons never has to normalize a fraction.
-/

/-- Constant 0.1, the relevance threshold used across the pipeline. -/
def qPointOne : ℚ := ⟨1, 10, by norm_num, by norm_num⟩

/-- Constant 0.3, the `good` quality-tier breakpoint. -/
def qThreeTenths : ℚ := ⟨3, 10, by norm_num, by norm_num⟩

/-- Constant 0.5, the `excellent` quality-tier breakpoint. -/
def qHalf : ℚ := ⟨1, 2, by norm_num, by norm_num⟩

theorem qPointOne_eq : qPointOne = 1 / 10 := by
  rw [qPointOne, Rat.mk'_eq_divInt, Rat.divInt_eq_div]; norm_num

theorem qThreeTenths_eq : qThreeTenths = 3 / 10 := by
  rw [qThreeTenths, Rat.mk'_eq_divInt, Rat.divInt_eq_div]; norm_num

theorem qHalf_eq : qHalf = 1 / 2 := by
  rw [qHalf, Rat.mk'_eq_divInt, Rat.divInt_eq_div]; norm_num

/-- Python `str.strip()` (whitespace from both ends). -/
def pyStrip (s : String) : String :=
  ⟨((s.data.dropWhile Char.isWhitespace).reverse.dropWhile Char.isWhitespace).reverse⟩

/-- Python `str.lower()`. -/
def pyLower (s : String) : String := ⟨s.data.map Char.toLower⟩

/-- Python `len` on a string (number of code points). -/
def pyLen (s : String) : Nat := s.data.length

/-- Helper for `containsSub`: does `pat` occur in the char list? -/
def containsGo (pat : List Char) : List Char → Bool
  | [] => pat.isEmpty
  | c :: rest => pat.isPrefixOf (c :: rest) || containsGo pat rest

/-- Python substring test `pat in s`. -/
def containsSub (s pat : String) : Bool := containsGo pat.data s.data

/-- Helper for `pySplit`; the fuel argument is always at least the length of
the list plus one, so the fuel-exhausted branch is never reached for a
non-empty separator. -/
def splitOnGo (sep : List Char) : Nat → List Char → List Char → List (List Char)
  | 0, l, acc => [acc.reverse ++ l]
  | Nat.succ fuel, l, acc =>
    match l with
    | [] => [acc.reverse]
    | c :: rest =>
      if sep.isPrefixOf (c :: rest) then
        acc.reverse :: splitOnGo sep fuel ((c :: rest).drop sep.length) []
      else
        splitOnGo sep fuel rest (c :: acc)

/-- Python `s.split(sep)` for a non-empty separator. -/
def pySplit (s : String) (sep : String) : List String :=
  (splitOnGo sep.data (s.data.length + 1) s.data []).map String.mk

/-- The three partition (collection) keys of the corpus:
`self.collections` in `ShakespeareSearchClient.__init__`. -/
inductive PartitionKey
  | plays
  | sonnets
  | poems
deriving DecidableEq

/-- Weaviate class name of a partition (`self.collections` values). -/
def className : PartitionKey → String
  | .plays => "ShakespearePlays"
  | .sonnets => "ShakespeareSonnets"
  | .poems => "ShakespearePoems"

/-- Membership test / lookup `collection_type in self.collections`. -/
def parseKey (s : String) : Option PartitionKey :=
  if s = "plays" then some .plays
  else if s = "sonnets" then some .sonnets
  else if s = "poems" then some .poems
  else none

/-- The list `["plays", "sonnets", "poems"]` used as validation set and as
the conservative fallback in `determine_relevant_collections`. -/
def allCollections : List String := ["plays", "sonnets", "poems"]

/-- Parsing and validation step of `determine_relevant_collections`
(lines 111-115 of `shakespeare_ai.py`): strip + lowercase the response,
split on commas, strip each token, keep only known collection names. -/
def parse_valid_collections (content : String) : List String :=
  let collections := (pySplit (pyLower (pyStrip content)) ",").map pyStrip
  collections.filter (fun c => c ∈ allCollections)

/-- `ShakespeareAIClient.determine_relevant_collections`.  `clientAvailable`
models `self.client is not None`; `serviceResponse` is the classification
call's content, `none` meaning the call raised or returned no content. -/
def determine_relevant_collections (clientAvailable : Bool)
    (serviceResponse : Option String) : List String :=
  if !clientAvailable then allCollections
  else
    match serviceResponse with
    | none => allCollections
    | some content =>
      let valid := parse_valid_collections content
      if valid.isEmpty then allCollections else valid

/-- Opening line of `ShakespeareAIClient._create_fallback_response`
(keyword sniffing on the lower-cased query). -/
def fallback_opening (query : String) : String :=
  let q := pyLower query
  if containsSub q "who is" || containsSub q "who was" then
    "Based on the passages I found, here\x27s what Shakespeare\x27s works tell us:"
  else if containsSub q "what" && (containsSub q "say" || containsSub q "says") then
    "Here are the relevant passages where characters speak about this topic:"
  else if containsSub q "sonnet" then
    "I found these relevant sonnets:"
  else
    "Here are the most relevant passages from Shakespeare\x27s works:"

/-- Content extraction inside the fallback loop: `context.split(": ", 1)[1]`
when `": "` occurs in the context string, else the context unchanged. -/
def extract_content (context : String) : String :=
  if containsSub context ": " then
    match pySplit context ": " with
    | [] => context
    | _ :: rest => String.intercalate ": " rest
  else context

/-- One numbered entry of the fallback response: the bold citation label,
the extracted passage text, and a blank separator line. -/
def fallback_entry (idx : Nat) (context citation : String) : List String :=
  ["**" ++ toString idx ++ ". " ++ citation ++ ":**", extract_content context, ""]

/-- `ShakespeareAIClient._create_fallback_response`: opening line chosen by
keyword sniffing, up to 5 numbered (context, citation) entries, and a
closing line depending on `len(context_parts) > 1`. -/
def create_fallback_response (query : String)
    (context_parts citation_parts : List String) : String :=
  let pairs := (context_parts.take 5).zip (citation_parts.take 5)
  let numbered := pairs.enum.flatMap (fun p => fallback_entry (p.1 + 1) p.2.1 p.2.2)
  let closing :=
    if context_parts.length > 1 then
      "These passages show different perspectives on your query from Shakespeare\x27s works."
    else
      "This passage addresses your query from Shakespeare\x27s works."
  String.intercalate "\n" ([fallback_opening query, ""] ++ numbered ++ [closing])

/-- `ShakespeareAIClient.generate_response`.  `serviceResponse` is the
generation call's content (`none` = the call raised, returned no choices, or
empty content).  The returned text is kept only when its stripped length
exceeds 10; every other path falls back to the templated response. -/
def generate_response (clientAvailable : Bool) (serviceResponse : Option String)
    (query : String) (context_parts citation_parts : List String) : String :=
  if !clientAvailable then create_fallback_response query context_parts citation_parts
  else
    match serviceResponse with
    | none => create_fallback_response query context_parts citation_parts
    | some content =>
      let generated := pyStrip content
      if pyLen generated > 10 then generated
      else create_fallback_response query context_parts citation_parts

/-- Properties of one stored object, as read back from the corpus store.
A field is `none` when the underlying dictionary key is absent (or holds
Python `None`).  Field types follow the collection schemas declared in
`load_weaviate.py` (`act`, `scene`, `sequence_no`, `sonnet_number`,
`stanza_number` are INT properties). -/
structure Props where
  title : Option String := none
  act : Option Int := none
  scene : Option Int := none
  speaker : Option String := none
  content : Option String := none
  chunk_type : Option String := none
  sonnet_number : Option Int := none
  stanza_number : Option Int := none
  play : Option String := none
  sequence_no : Option Int := none
  line_numbers : Option (List Int) := none
deriving DecidableEq

/-- Query metadata attached to one returned object (`obj.metadata`). -/
structure Metadata where
  score : Option ℚ := none
  distance : Option ℚ := none
deriving DecidableEq

/-- One raw object of a search response (`obj` in `search_collection`);
`metadata` is `none` when `obj.metadata` is Python `None`. -/
structure RawObj where
  properties : Props
  metadata : Option Metadata := none
deriving DecidableEq

/-- One entry of `preceding_chunks` / `following_chunks` as built by
`_add_play_context` (all fields read with defaulting `get`). -/
structure CtxChunk where
  content : String
  speaker : String
  chunk_type : String
  sequence_no : Int
  line_numbers : List Int
deriving DecidableEq

/-- The `result["context"]` dictionary attached by `_add_play_context`. -/
structure PlayContext where
  preceding_chunks : List CtxChunk
  following_chunks : List CtxChunk
  current_sequence_no : Int
deriving DecidableEq

/-- One result dictionary built by `search_collection`: properties, the
normalized score, the reported distance, and (for plays) a context window. -/
structure SResult where
  properties : Props
  score : Option ℚ := none
  distance : Option ℚ := none
  context : Option PlayContext := none
deriving DecidableEq

/-- Ordering used to sort context chunks (`key=lambda x: x["sequence_no"]`). -/
def seqLe (a b : CtxChunk) : Prop := a.sequence_no ≤ b.sequence_no

instance : DecidableRel seqLe := fun a b => Int.decLe a.sequence_no b.sequence_no

instance : IsTotal CtxChunk seqLe := ⟨fun a b => Int.le_total a.sequence_no b.sequence_no⟩

instance : IsTrans CtxChunk seqLe := ⟨fun _ _ _ h1 h2 => le_trans h1 h2⟩

/-- Stable ascending sort by sequence number (Python `list.sort` with the
`sequence_no` key; insertion sort computes the same list as Python's stable
sort). -/
def sortBySeq (l : List CtxChunk) : List CtxChunk := List.insertionSort seqLe l

/-- `ShakespeareSearchClient._get_context_chunks`: fetch objects of the same
play whose `sequence_no` lies in `[start_sequence, end_sequence]`, capped at
20 objects.  `db` models the stored objects of the plays collection in
backend return order. -/
def get_context_chunks (db : List Props) (play_name : String)
    (start_sequence end_sequence : Int) : List Props :=
  (db.filter (fun c =>
    c.play == some play_name &&
      (match c.sequence_no with
       | some n => decide (start_sequence ≤ n) && decide (n ≤ end_sequence)
       | none => false))).take 20

/-- The chunk record appended to a context list by `_add_play_context`. -/
def mkCtxChunk (c : Props) (n : Int) : CtxChunk :=
  { content := c.content.getD "", speaker := c.speaker.getD "",
    chunk_type := c.chunk_type.getD "", sequence_no := n,
    line_numbers := c.line_numbers.getD [] }

/-- `ShakespeareSearchClient._add_play_context`: if the matched passage has a
sequence number and a non-empty play name, fetch the chunks of the same play
in the range `[max(1, seq - 5), seq + 5]`, split them into preceding
(`seq_n < seq`) and following (`seq_n > seq`) chunk records, sort both lists
by sequence number and attach them; otherwise return the result unchanged. -/
def add_play_context (db : List Props) (r : SResult) : SResult :=
  match r.properties.sequence_no with
  | none => r
  | some seq =>
    let play_name := r.properties.play.getD ""
    if play_name = "" then r
    else
      let chunks := get_context_chunks db play_name (max 1 (seq - 5)) (seq + 5)
      let preceding := chunks.filterMap (fun c =>
        match c.sequence_no with
        | some n => if n < seq then some (mkCtxChunk c n) else none
        | none => none)
      let following := chunks.filterMap (fun c =>
        match c.sequence_no with
        | some n => if seq < n then some (mkCtxChunk c n) else none
        | none => none)
      { r with context := some { preceding_chunks := sortBySeq preceding,
                                 following_chunks := sortBySeq following,
                                 current_sequence_no := seq } }

/-- Truthiness filter of the primary path of `search_collection`:
`obj.metadata.score if obj.metadata and obj.metadata.score else None`
(a score of 0.0 is falsy in Python and is therefore dropped). -/
def truthyScore (o : RawObj) : Option ℚ :=
  match o.metadata with
  | some m =>
    match m.score with
    | some s => if s = 0 then none else some s
    | none => none
  | none => none

/-- Truthiness filter for the distance, same shape as `truthyScore`. -/
def truthyDistance (o : RawObj) : Option ℚ :=
  match o.metadata with
  | some m =>
    match m.distance with
    | some d => if d = 0 then none else some d
    | none => none
  | none => none

/-- Score normalization of the primary (hybrid) path of `search_collection`
(lines 94-108): keep the truthy native score; otherwise, when a truthy
distance exists, derive `1 - distance` if `distance < 1` else `0`. -/
def primaryNormalize (o : RawObj) : SResult :=
  { properties := o.properties,
    score :=
      match truthyScore o with
      | some s => some s
      | none =>
        match truthyDistance o with
        | some d => some (if d < 1 then 1 - d else 0)
        | none => none,
    distance := truthyDistance o,
    context := none }

/-- Distance used by the vector-only fallback path of `search_collection`:
`obj.metadata.distance if obj.metadata else 1.0`.  The value is `none` when
metadata exists but its distance is Python `None`. -/
def fbDistance (o : RawObj) : Option ℚ :=
  match o.metadata with
  | some m => m.distance
  | none => some 1

/-- Per-object normalization of the vector-only fallback path of
`search_collection` (lines 128-143): `score = 1 - distance if distance < 1
else 0`.  When the distance is Python `None`, the comparison `None < 1.0`
raises, which aborts the whole fallback; that is the `none` result here. -/
def fallbackNormalize (o : RawObj) : Option SResult :=
  match fbDistance o with
  | none => none
  | some d =>
    some { properties := o.properties, score := some (if d < 1 then 1 - d else 0),
           distance := some d, context := none }

/-- Context enrichment applied to each result of the plays collection
(`if collection_name == "ShakespearePlays"`). -/
def maybeAddContext (db : List Props) (collection_name : String) (r : SResult) : SResult :=
  if collection_name = "ShakespearePlays" then add_play_context db r else r

/-- Normalization of the whole retry batch: the Python loop appends one
normalized result per object, and a raised `TypeError` discards everything
built so far (the `except` clause returns the empty list). -/
def mapMFallback : List RawObj → Option (List SResult)
  | [] => some []
  | o :: os =>
    match fallbackNormalize o with
    | none => none
    | some r =>
      match mapMFallback os with
      | none => none
      | some rs => some (r :: rs)

/-- `ShakespeareSearchClient.search_collection`.  `primary` is the hybrid
query response (`none` = the call raised), `fallback` the `near_text` retry
response.  If the primary call fails, the fallback is tried once; if the
retry fails too (or a fallback object makes the score derivation raise), the
function returns the empty list. -/
def search_collection (db : List Props) (collection_name : String)
    (primary : Option (List RawObj)) (fallback : Option (List RawObj)) : List SResult :=
  match primary with
  | some objs => objs.map (fun o => maybeAddContext db collection_name (primaryNormalize o))
  | none =>
    match fallback with
    | none => []
    | some objs =>
      match mapMFallback objs with
      | none => []
      | some rs => rs.map (maybeAddContext db collection_name)

/-- A multi-partition result set: the Python dict mapping collection type to
its result list, in insertion order. -/
abbrev ResultSet := List (PartitionKey × List SResult)

/-- Assignment `d[k] = v` on an insertion-ordered Python dict. -/
def dictInsert {κ α : Type} [DecidableEq κ] : List (κ × α) → κ → α → List (κ × α)
  | [], k, v => [(k, v)]
  | (k', v') :: rest, k, v =>
    if k' = k then (k, v) :: rest else (k', v') :: dictInsert rest k v

/-- One iteration of the multi-partition search loops: search the partition
and record the results under its key only when they are non-empty. -/
def saStep (searchFn : String → String → List SResult) (query : String)
    (acc : ResultSet) (k : PartitionKey) : ResultSet :=
  let results := searchFn (className k) query
  if results.isEmpty then acc else dictInsert acc k results

/-- One iteration of `search_relevant_collections`: skip unknown collection
types, otherwise search and record as in `saStep`. -/
def srcStep (searchFn : String → String → List SResult) (query : String)
    (acc : ResultSet) (t : String) : ResultSet :=
  match parseKey t with
  | none => acc
  | some k => saStep searchFn query acc k

/-- `ShakespeareSearchClient.search_relevant_collections`: search each
requested collection type that is a known key, and record its results only
when non-empty.  `searchFn` stands for `search_collection` applied to the
ambient backend state (class name and query in, results out). -/
def search_relevant_collections (searchFn : String → String → List SResult)
    (query : String) (collection_types : List String) : ResultSet :=
  collection_types.foldl (srcStep searchFn query) []

/-- `ShakespeareSearchClient.search_all_collections`: same recording rule,
iterating over all three collections. -/
def search_all_collections (searchFn : String → String → List SResult)
    (query : String) : ResultSet :=
  [PartitionKey.plays, PartitionKey.sonnets, PartitionKey.poems].foldl
    (saStep searchFn query) []

/-- One line of the preceding/following context inside
`_build_enhanced_content`: `"speaker: content"`, bare content when there is
no speaker, nothing when the stripped content is empty. -/
def chunkLine (c : CtxChunk) : Option String :=
  let content := pyStrip c.content
  if content = "" then none
  else if c.speaker = "" then some content
  else some (c.speaker ++ ": " ++ content)

/-- `ShakespeareSemanticProcessor._build_enhanced_content`. -/
def build_enhanced_content (main_content : String) (ctx : Option PlayContext) : String :=
  match ctx with
  | none => main_content
  | some c =>
    let preceding := c.preceding_chunks.filterMap chunkLine
    let following := c.following_chunks.filterMap chunkLine
    let parts :=
      (if preceding.isEmpty then []
       else ["[Previous context: " ++ String.intercalate " | " preceding ++ "]"])
      ++ [main_content]
      ++ (if following.isEmpty then []
          else ["[Following context: " ++ String.intercalate " | " following ++ "]"])
    String.intercalate " " parts

/-- Citation string for a plays match (`build_context_from_results`,
plays branch); `act`/`scene` are Python-truthy when present and non-zero. -/
def playsCitation (p : Props) : String :=
  let title := p.title.getD "Unknown Play"
  let actScene :=
    match p.act, p.scene with
    | some a, some s =>
      if a ≠ 0 ∧ s ≠ 0 then " (Act " ++ toString a ++ ", Scene " ++ toString s ++ ")"
      else ""
    | _, _ => ""
  let speaker := p.speaker.getD ""
  title ++ actScene ++ (if speaker = "" then "" else " - " ++ speaker)

/-- Citation string for a sonnets match. -/
def sonnetCitation (p : Props) : String :=
  match p.sonnet_number with
  | some n => if n ≠ 0 then "Sonnet " ++ toString n else "a sonnet"
  | none => "a sonnet"

/-- Citation string for a poems match. -/
def poemCitation (p : Props) : String :=
  let title := p.title.getD "Unknown Poem"
  let stanza :=
    match p.stanza_number with
    | some n => if n ≠ 0 then " (Stanza " ++ toString n ++ ")" else ""
    | none => ""
  title ++ stanza

/-- One (context, citation) pair of `build_context_from_results`: built only
when the stripped content is non-empty; for plays the content is enriched
with the attached context window. -/
def entryFor (k : PartitionKey) (r : SResult) : Option (String × String) :=
  let content := pyStrip (r.properties.content.getD "")
  if content = "" then none
  else
    match k with
    | .plays =>
      let citation := playsCitation r.properties
      some ("From " ++ citation ++ ": " ++ build_enhanced_content content r.context, citation)
    | .sonnets =>
      let citation := sonnetCitation r.properties
      some ("From " ++ citation ++ ": " ++ content, citation)
    | .poems =>
      let citation := poemCitation r.properties
      some ("From " ++ citation ++ ": " ++ content, citation)

/-- Relevance filter of one collection's results (`score > 0.1`).  A result
whose score is Python `None` makes the comparison raise a `TypeError`. -/
def filterGood : List SResult → Except String (List SResult)
  | [] => .ok []
  | r :: rest =>
    match r.score with
    | none => .error "TypeError: NoneType comparison"
    | some s =>
      match filterGood rest with
      | .error e => .error e
      | .ok rest' => .ok (if s > qPointOne then r :: rest' else rest')

/-- One iteration of the filtering loop of `build_context_from_results`:
filter this collection's results, record them under the collection key when
any survive, and add the survivors to the running count. -/
def filterStep (acc : ResultSet × Nat) (p : PartitionKey × List SResult) :
    Except String (ResultSet × Nat) :=
  match filterGood p.2 with
  | .error e => Except.error e
  | .ok good =>
    Except.ok (if good.isEmpty then acc.1 else dictInsert acc.1 p.1 good,
               acc.2 + good.length)

/-- First phase of `build_context_from_results` (lines 159-171): build the
filtered dict and the total count of results that passed the threshold. -/
def filterPhase (rs : ResultSet) : Except String (ResultSet × Nat) :=
  rs.foldlM filterStep ([], 0)

/-- Fallback phase (lines 174-177): when nothing passed the threshold, take
the first 2 raw results of every non-empty collection. -/
def fallbackFiltered (rs : ResultSet) (filtered : ResultSet) : ResultSet :=
  rs.foldl (fun acc p => if p.2.isEmpty then acc else dictInsert acc p.1 (p.2.take 2))
    filtered

/-- Context-assembly phase (lines 179-223): top 3 results per surviving
collection, one (context, citation) pair per result with non-empty content. -/
def contextEntries (filtered : ResultSet) : List (String × String) :=
  filtered.flatMap (fun p => (p.2.take 3).filterMap (entryFor p.1))

/-- `ShakespeareSemanticProcessor.build_context_from_results`. -/
def build_context_from_results (query : String) (rs : ResultSet) :
    Except String (List String × List String) :=
  if rs.isEmpty then .ok ([], [])
  else
    match filterPhase rs with
    | .error e => .error e
    | .ok (filtered, totalGood) =>
      let filtered := if totalGood = 0 then fallbackFiltered rs filtered else filtered
      let entries := contextEntries filtered
      .ok (entries.map Prod.fst, entries.map Prod.snd)

/-- The dictionary returned by `analyze_search_quality`. -/
structure SearchQuality where
  total_results : Nat
  avg_score : ℚ
  max_score : ℚ
  collections_searched : Nat
  quality : String
deriving DecidableEq

/-- Python `max` over a non-empty list (0 on the never-reached empty case). -/
def listMax : List ℚ → ℚ
  | [] => 0
  | x :: xs => xs.foldl max x

/-- Quality tier from the maximum score (lines 302-310). -/
def tierOf (max_score : ℚ) : String :=
  if max_score > qHalf then "excellent"
  else if max_score > qThreeTenths then "good"
  else if max_score > qPointOne then "fair"
  else "poor"

/-- Ordinal rank of a quality tier (used to state monotonicity). -/
def tierRank (tier : String) : Nat :=
  if tier = "excellent" then 3
  else if tier = "good" then 2
  else if tier = "fair" then 1
  else 0

/-- All score values of a result set, in iteration order (`all_scores`). -/
def flattenScores (rs : ResultSet) : List (Option ℚ) :=
  rs.flatMap (fun p => p.2.map SResult.score)

/-- `ShakespeareSemanticProcessor.analyze_search_quality`.  A Python `None`
among the scores makes `sum`/`max` raise; that is the `.error` case. -/
def analyze_search_quality (rs : ResultSet) : Except String SearchQuality :=
  if rs.isEmpty then
    .ok { total_results := 0, avg_score := 0, max_score := 0,
          collections_searched := 0, quality := "poor" }
  else
    let all_scores := flattenScores rs
    if all_scores.isEmpty then
      .ok { total_results := 0, avg_score := 0, max_score := 0,
            collections_searched := rs.length, quality := "poor" }
    else if none ∈ all_scores then
      .error "TypeError: NoneType in sum"
    else
      let scores := all_scores.reduceOption
      let mx := listMax scores
      .ok { total_results := all_scores.length,
            avg_score := scores.sum / (all_scores.length : ℚ),
            max_score := mx, collections_searched := rs.length, quality := tierOf mx }

/-- Step 4 of `ShakespeareCoreProcessor.process_query` (lines 114-124)
combined with `generate_response`: call the generation service only when the
client is available and the analyzed max score exceeds 0.1, otherwise (and on
any generation failure) produce the templated fallback response. -/
def process_query_step4 (aiAvailable : Bool) (maxScore : ℚ)
    (serviceResponse : Option String) (query : String)
    (context_parts citation_parts : List String) : String :=
  if aiAvailable ∧ maxScore > qPointOne then
    generate_response aiAvailable serviceResponse query context_parts citation_parts
  else
    create_fallback_response query context_parts citation_parts

/-- Constant 0.05, a sample sub-threshold relevance score. -/
def qTwentieth : ℚ := ⟨1, 20, by norm_num, by norm_num⟩

/-- Keys of a result set, in insertion order. -/
def keysOf (rs : ResultSet) : List PartitionKey := rs.map Prod.fst

/-- Chunk records of all objects of the same play retrieved for the context
range `[max(1, seq - 5), seq + 5]` (before the preceding/following split). -/
def rangeCandidates (db : List Props) (r : SResult) (seq : Int) : List CtxChunk :=
  (get_context_chunks db (r.properties.play.getD "") (max 1 (seq - 5)) (seq + 5)).filterMap
    (fun c =>
      match c.sequence_no with
      | some n => some (mkCtxChunk c n)
      | none => none)

/-- Specification of a successful context expansion for a match whose
passage has sequence number `seq`: a context window is attached, the match's
other fields are untouched, the two lists hold exactly the retrieved
neighbors with smaller (resp. larger) sequence number — in particular no
chunk carrying the matched sequence number — and both lists are sorted
ascending by sequence number. -/
def ExpandedOk (db : List Props) (r : SResult) (seq : Int) : Prop :=
  ∃ ctx, (add_play_context db r).context = some ctx ∧
    (add_play_context db r).properties = r.properties ∧
    (add_play_context db r).score = r.score ∧
    (add_play_context db r).distance = r.distance ∧
    ctx.current_sequence_no = seq ∧
    (∀ c ∈ ctx.preceding_chunks, c.sequence_no < seq) ∧
    (∀ c ∈ ctx.following_chunks, seq < c.sequence_no) ∧
    (∀ c ∈ ctx.preceding_chunks, c.sequence_no ≠ seq) ∧
    (∀ c ∈ ctx.following_chunks, c.sequence_no ≠ seq) ∧
    ctx.preceding_chunks.Perm
      ((rangeCandidates db r seq).filter (fun c => decide (c.sequence_no < seq))) ∧
    ctx.following_chunks.Perm
      ((rangeCandidates db r seq).filter (fun c => decide (seq < c.sequence_no))) ∧
    List.Sorted seqLe ctx.preceding_chunks ∧
    List.Sorted seqLe ctx.following_chunks

/-- Raw object whose backend metadata carries a native score of 0.0 together
with a distance of 0.5 (a perfectly possible backend response). -/
def zeroScoreObj : RawObj :=
  { properties := {}, metadata := some { score := some 0, distance := some qHalf } }

/-- Raw object whose backend metadata carries a negative distance (as the
dot-product distance metric can produce) and no score. -/
def negDistObj : RawObj :=
  { properties := {}, metadata := some { score := none, distance := some (-1) } }

/-- Raw object whose backend metadata carries a non-zero native score. -/
def scoredObj : RawObj :=
  { properties := {}, metadata := some { score := some qHalf, distance := none } }

/-- A match with a sub-threshold score and empty content. -/
def blankLowResult : SResult :=
  { properties := { content := some "" }, score := some qTwentieth }

/-- A match with a sub-threshold score and non-empty content. -/
def lowResult : SResult :=
  { properties := { content := some "Shall I compare thee to a summers day",
                    sonnet_number := some 18 },
    score := some qTwentieth }

/-- A well-scored match with content, used as a sample backend result. -/
def goodResult : SResult :=
  { properties := { content := some "To be or not to be", play := some "Hamlet" },
    score := some qHalf }

/-- A sample search function returning one good match for every collection. -/
def constSearchFn : String → String → List SResult := fun _ _ => [goodResult]

/-- Stored plays objects for the context-expansion scenario: five chunks of
Hamlet around sequence number 42 (including the matched chunk itself), one
chunk of Hamlet outside the range, and one chunk of another play inside the
range. -/
def hamletDb : List Props :=
  [{ play := some "Hamlet", sequence_no := some 38, content := some "chunk 38",
     speaker := some "HAMLET" },
   { play := some "Hamlet", sequence_no := some 40, content := some "chunk 40" },
   { play := some "Hamlet", sequence_no := some 42, content := some "chunk 42" },
   { play := some "Hamlet", sequence_no := some 44, content := some "chunk 44" },
   { play := some "Hamlet", sequence_no := some 46, content := some "chunk 46" },
   { play := some "Hamlet", sequence_no := some 60, content := some "far away" },
   { play := some "Othello", sequence_no := some 41, content := some "other play" }]

/-- The matched Hamlet passage with sequence number 42. -/
def hamletMatch : SResult :=
  { properties := { play := some "Hamlet", sequence_no := some 42,
                    content := some "chunk 42" },
    score := some qHalf }

/-!
Theorems settling the claims.
-/

/-- Claim C1: for every query, the relevance classifier returns a non-empty
subset of the known partition keys `{plays, sonnets, poems}`; whenever the
Generation Service is unavailable, the classification call fails, or
validating the parsed tokens yields an empty set, it returns exactly the
list of all three partitions. -/
theorem c1_classifier_conservative (clientAvailable : Bool)
    (serviceResponse : Option String) :
    (determine_relevant_collections clientAvailable serviceResponse ≠ [] ∧
      ∀ c ∈ determine_relevant_collections clientAvailable serviceResponse,
        c ∈ allCollections) ∧
    (clientAvailable = false →
      determine_relevant_collections clientAvailable serviceResponse = allCollections) ∧
    (serviceResponse = none →
      determine_relevant_collections clientAvailable serviceResponse = allCollections) ∧
    (∀ content, serviceResponse = some content → parse_valid_collections content = [] →
      determine_relevant_collections clientAvailable serviceResponse = allCollections) := by
  cases clientAvailable with
  | false =>
    refine ⟨⟨?_, ?_⟩, ?_, ?_, ?_⟩ <;>
      simp [determine_relevant_collections, allCollections]
  | true =>
    cases serviceResponse with
    | none =>
      refine ⟨⟨?_, ?_⟩, ?_, ?_, ?_⟩ <;>
        simp [determine_relevant_collections, allCollections]
    | some content =>
      have hchar : determine_relevant_collections true (some content) =
          if (parse_valid_collections content).isEmpty then allCollections
          else parse_valid_collections content := rfl
      by_cases h : (parse_valid_collections content).isEmpty
      · rw [hchar, if_pos h]
        refine ⟨⟨?_, ?_⟩, ?_, ?_, ?_⟩ <;> simp [allCollections]
      · rw [hchar, if_neg h]
        refine ⟨⟨?_, ?_⟩, ?_, ?_, ?_⟩
        · exact fun hnil => h (by simp [hnil])
        · intro c hc
          have := List.mem_filter.mp hc
          exact of_decide_eq_true this.2
        · intro hfalse; exact absurd hfalse (by simp)
        · intro hnone; exact absurd hnone (by simp)
        · intro content' heq hempty
          have hc : content' = content := by injection heq.symm
          exact absurd (hc ▸ hempty) (fun he => h (by simp [he]))

/-- Witness for C1 at a concrete input: with the service unavailable, the
classifier returns all three partitions. -/
theorem c1_witness : determine_relevant_collections false none = allCollections :=
  (c1_classifier_conservative false none).2.1 rfl

/-- Counterexample to claim C2 as stated: the backend supplies a native
score (0.0) together with a distance of 0.5, yet the normalized score
attached to the Match is 0.5 (derived from the distance), not the supplied
native score — Python's truthiness test drops a native score of 0.0. -/
theorem c2_zero_native_score_cx :
    zeroScoreObj.metadata = some { score := some 0, distance := some qHalf } ∧
    (primaryNormalize zeroScoreObj).score = some (1 - qHalf) ∧
    (primaryNormalize zeroScoreObj).score ≠ some 0 := by
  refine ⟨rfl, rfl, ?_⟩
  rw [show (primaryNormalize zeroScoreObj).score = some (1 - qHalf) from rfl]
  norm_num [qHalf_eq]

/-- Claim C2 (amended): the normalized score equals the backend's native
score whenever the backend supplies a non-zero one; when the native score is
absent or zero, the score is derived from the distance as `1 - distance` if
`distance < 1` and `0` otherwise, provided a non-zero distance is supplied;
otherwise no score is attached. -/
theorem c2_score_normalization (o : RawObj) :
    (primaryNormalize o).properties = o.properties ∧
    (primaryNormalize o).distance = truthyDistance o ∧
    (∀ m s, o.metadata = some m → m.score = some s → s ≠ 0 →
      (primaryNormalize o).score = some s) ∧
    (∀ m d, o.metadata = some m → (m.score = none ∨ m.score = some 0) →
      m.distance = some d → d ≠ 0 →
      (primaryNormalize o).score = some (if d < 1 then 1 - d else 0)) ∧
    (∀ m, o.metadata = some m → (m.score = none ∨ m.score = some 0) →
      (m.distance = none ∨ m.distance = some 0) →
      (primaryNormalize o).score = none) ∧
    (o.metadata = none → (primaryNormalize o).score = none) := by
  refine ⟨rfl, rfl, ?_, ?_, ?_, ?_⟩
  · intro m s hm hs hs0
    simp [primaryNormalize, truthyScore, hm, hs, hs0]
  · intro m d hm hsc hd hd0
    have hts : truthyScore o = none := by
      rcases hsc with h | h <;> simp [truthyScore, hm, h]
    have htd : truthyDistance o = some d := by
      simp [truthyDistance, hm, hd, hd0]
    simp [primaryNormalize, hts, htd]
  · intro m hm hsc hdc
    have hts : truthyScore o = none := by
      rcases hsc with h | h <;> simp [truthyScore, hm, h]
    have htd : truthyDistance o = none := by
      rcases hdc with h | h <;> simp [truthyDistance, hm, h]
    simp [primaryNormalize, hts, htd]
  · intro hm
    simp [primaryNormalize, truthyScore, truthyDistance, hm]

/-- Witness for C2 at a concrete input: a supplied native score of 0.5 is
kept unchanged. -/
theorem c2_witness : (primaryNormalize scoredObj).score = some qHalf :=
  (c2_score_normalization scoredObj).2.2.1 { score := some qHalf, distance := none }
    qHalf rfl rfl (by decide)

/-- Counterexample to claim C6 as stated: the service is available, the max
score exceeds 0.1, and the service returns a text of exactly 10 characters —
not "under 10" — yet the pipeline still produces the templated fallback
answer, because the code keeps the text only when its length strictly
exceeds 10. -/
theorem c6_exact_ten_chars_cx :
    pyLen (pyStrip "abcdefghij") = 10 ∧
    qHalf > qPointOne ∧
    process_query_step4 true qHalf (some "abcdefghij") "what is love"
        ["From Sonnet 116: Love is not love"] ["Sonnet 116"] =
      create_fallback_response "what is love"
        ["From Sonnet 116: Love is not love"] ["Sonnet 116"] ∧
    create_fallback_response "what is love"
        ["From Sonnet 116: Love is not love"] ["Sonnet 116"] ≠ "abcdefghij" := by
  exact ⟨by decide, by decide, rfl, by decide⟩

/-- Claim C6 (amended): the pipeline produces the deterministic templated
answer exactly when the service is unavailable, the maximum relevance score
is at or below 0.1, the service call fails, or the returned stripped text is
at most 10 characters long; otherwise it returns the stripped service
text. -/
theorem c6_generation_fallback (aiAvailable : Bool) (maxScore : ℚ)
    (svc : Option String) (q : String) (ctx cit : List String) :
    (aiAvailable = false →
      process_query_step4 aiAvailable maxScore svc q ctx cit =
        create_fallback_response q ctx cit) ∧
    (maxScore ≤ qPointOne →
      process_query_step4 aiAvailable maxScore svc q ctx cit =
        create_fallback_response q ctx cit) ∧
    (svc = none →
      process_query_step4 aiAvailable maxScore svc q ctx cit =
        create_fallback_response q ctx cit) ∧
    (∀ t, svc = some t → pyLen (pyStrip t) ≤ 10 →
      process_query_step4 aiAvailable maxScore svc q ctx cit =
        create_fallback_response q ctx cit) ∧
    (∀ t, aiAvailable = true → maxScore > qPointOne → svc = some t →
      pyLen (pyStrip t) > 10 →
      process_query_step4 aiAvailable maxScore svc q ctx cit = pyStrip t) := by
  refine ⟨?_, ?_, ?_, ?_, ?_⟩
  · intro h; subst h; simp [process_query_step4]
  · intro h
    have hn : ¬ (maxScore > qPointOne) := not_lt.mpr h
    simp [process_query_step4, hn]
  · intro h; subst h
    cases aiAvailable <;> simp [process_query_step4, generate_response]
  · intro t h hl; subst h
    have hn : ¬ (pyLen (pyStrip t) > 10) := Nat.not_lt.mpr hl
    cases aiAvailable <;> simp [process_query_step4, generate_response, hn]
  · intro t ha hm hs hl
    subst ha; subst hs
    simp [process_query_step4, generate_response, hm, hl]

/-- Witness for C6 at a concrete input: an adequate service answer of more
than 10 characters is returned stripped. -/
theorem c6_witness :
    process_query_step4 true qHalf (some " a genuine answer ") "q" [] [] =
      pyStrip " a genuine answer " :=
  (c6_generation_fallback true qHalf (some " a genuine answer ") "q" [] []).2.2.2.2
    " a genuine answer " rfl (by decide) rfl (by decide)

/-- Counterexample to claim C9 as stated: a query containing "say" (but not
"what") does not get the dialogue framing — the code requires "what" to
occur as well — so the opening falls through to the generic line. -/
theorem c9_say_without_what_cx :
    containsSub (pyLower "say something about love") "say" = true ∧
    containsSub (pyLower "say something about love") "what" = false ∧
    fallback_opening "say something about love" =
      "Here are the most relevant passages from Shakespeare\x27s works:" ∧
    "Here are the most relevant passages from Shakespeare\x27s works:" ≠
      "Here are the relevant passages where characters speak about this topic:" ∧
    create_fallback_response "say something about love"
        ["From Sonnet 18: hello world"] ["Sonnet 18"] =
      "Here are the most relevant passages from Shakespeare\x27s works:\n\n**1. Sonnet 18:**\nhello world\n\nThis passage addresses your query from Shakespeare\x27s works." := by
  exact ⟨by decide, by decide, by decide, by decide, by decide⟩

/-- Entries of the fallback response contribute three lines each. -/
theorem length_fallback_entries (l : List (Nat × String × String)) :
    (l.flatMap (fun p => fallback_entry (p.1 + 1) p.2.1 p.2.2)).length = 3 * l.length := by
  induction l with
  | nil => rfl
  | cons h t ih =>
    rw [List.flatMap_cons, List.length_append, ih]
    simp [fallback_entry]
    omega

/-- Claim C9 (amended): the templated answer opens with a line chosen by
keyword sniffing of the query ("who is/was" biographical; "what" together
with "say/says" dialogue; "sonnet" verse; else generic), then enumerates up
to 5 (context, citation) pairs as numbered entries in input order, each
rendering the citation as a bold label followed by the passage text, and
closes with a singular summary line when at most one passage was supplied
and a plural one when more than one was. -/
theorem c9_fallback_template (q : String) (ctx cit : List String) :
    ((containsSub (pyLower q) "who is" || containsSub (pyLower q) "who was") = true →
      fallback_opening q =
        "Based on the passages I found, here\x27s what Shakespeare\x27s works tell us:") ∧
    ((containsSub (pyLower q) "who is" || containsSub (pyLower q) "who was") = false →
      (containsSub (pyLower q) "what" &&
        (containsSub (pyLower q) "say" || containsSub (pyLower q) "says")) = true →
      fallback_opening q =
        "Here are the relevant passages where characters speak about this topic:") ∧
    ((containsSub (pyLower q) "who is" || containsSub (pyLower q) "who was") = false →
      (containsSub (pyLower q) "what" &&
        (containsSub (pyLower q) "say" || containsSub (pyLower q) "says")) = false →
      containsSub (pyLower q) "sonnet" = true →
      fallback_opening q = "I found these relevant sonnets:") ∧
    ((containsSub (pyLower q) "who is" || containsSub (pyLower q) "who was") = false →
      (containsSub (pyLower q) "what" &&
        (containsSub (pyLower q) "say" || containsSub (pyLower q) "says")) = false →
      containsSub (pyLower q) "sonnet" = false →
      fallback_opening q =
        "Here are the most relevant passages from Shakespeare\x27s works:") ∧
    ((((ctx.take 5).zip (cit.take 5)).enum.flatMap
        (fun p => fallback_entry (p.1 + 1) p.2.1 p.2.2)).length =
      3 * min 5 (min ctx.length cit.length)) ∧
    (1 < ctx.length →
      create_fallback_response q ctx cit =
        String.intercalate "\n" ([fallback_opening q, ""] ++
          ((ctx.take 5).zip (cit.take 5)).enum.flatMap
            (fun p => ["**" ++ toString (p.1 + 1) ++ ". " ++ p.2.2 ++ ":**",
                       extract_content p.2.1, ""]) ++
          ["These passages show different perspectives on your query from Shakespeare\x27s works."])) ∧
    (¬ 1 < ctx.length →
      create_fallback_response q ctx cit =
        String.intercalate "\n" ([fallback_opening q, ""] ++
          ((ctx.take 5).zip (cit.take 5)).enum.flatMap
            (fun p => ["**" ++ toString (p.1 + 1) ++ ". " ++ p.2.2 ++ ":**",
                       extract_content p.2.1, ""]) ++
          ["This passage addresses your query from Shakespeare\x27s works."])) := by
  refine ⟨?_, ?_, ?_, ?_, ?_, ?_, ?_⟩
  · intro h; simp [fallback_opening, h]
  · intro h1 h2; simp [fallback_opening, h1, h2]
  · intro h1 h2 h3; simp [fallback_opening, h1, h2, h3]
  · intro h1 h2 h3; simp [fallback_opening, h1, h2, h3]
  · rw [length_fallback_entries]
    simp [List.length_zip, List.length_take]
    omega
  · intro h
    simp only [create_fallback_response, fallback_entry, if_pos h]
  · intro h
    simp only [create_fallback_response, fallback_entry, if_neg h]

/-- Witness for C9 at a concrete input: a "who is" query gets the
biographical opening line. -/
theorem c9_witness :
    fallback_opening "Who is Iago?" =
      "Based on the passages I found, here\x27s what Shakespeare\x27s works tell us:" :=
  (c9_fallback_template "Who is Iago?" [] []).1 (by decide)

/-- The seed of a max-fold is a lower bound of the result. -/
theorem foldl_max_init_le (xs : List ℚ) : ∀ a : ℚ, a ≤ xs.foldl max a := by
  induction xs with
  | nil => intro a; exact le_refl a
  | cons x xs ih => intro a; exact le_trans (le_max_left a x) (ih (max a x))

/-- Every member of the list is a lower bound of a max-fold over it. -/
theorem foldl_max_le_of_mem (xs : List ℚ) :
    ∀ (a x : ℚ), x ∈ xs → x ≤ xs.foldl max a := by
  induction xs with
  | nil => intro a x hx; cases hx
  | cons y ys ih =>
    intro a x hx
    rcases List.mem_cons.mp hx with h | h
    · subst h
      exact le_trans (le_max_right a x) (foldl_max_init_le ys (max a x))
    · exact ih (max a y) x h

/-- A max-fold returns its seed or a member of the list. -/
theorem foldl_max_mem_or (xs : List ℚ) :
    ∀ a : ℚ, xs.foldl max a = a ∨ xs.foldl max a ∈ xs := by
  induction xs with
  | nil => intro a; exact Or.inl rfl
  | cons y ys ih =>
    intro a
    rw [List.foldl_cons]
    rcases ih (max a y) with h | h
    · rcases max_choice a y with hm | hm
      · left; rw [h, hm]
      · right; rw [h, hm]; exact List.mem_cons_self y ys
    · right; exact List.mem_cons_of_mem y h

/-- Every member of a list is at most its Python `max`. -/
theorem le_listMax (l : List ℚ) (x : ℚ) (hx : x ∈ l) : x ≤ listMax l := by
  cases l with
  | nil => cases hx
  | cons y ys =>
    rcases List.mem_cons.mp hx with h | h
    · subst h; exact foldl_max_init_le ys x
    · exact foldl_max_le_of_mem ys y x h

/-- The Python `max` of a non-empty list is one of its members. -/
theorem listMax_mem (l : List ℚ) (h : l ≠ []) : listMax l ∈ l := by
  cases l with
  | nil => exact absurd rfl h
  | cons y ys =>
    show ys.foldl max y ∈ y :: ys
    rcases foldl_max_mem_or ys y with h1 | h1
    · rw [h1]; exact List.mem_cons_self y ys
    · exact List.mem_cons_of_mem y h1

/-- The Python `max` is invariant under permutation. -/
theorem listMax_perm {l₁ l₂ : List ℚ} (h : l₁.Perm l₂) : listMax l₁ = listMax l₂ := by
  by_cases hne : l₁ = []
  · subst hne
    rw [List.Perm.eq_nil h.symm]
  · have hne2 : l₂ ≠ [] := fun he => hne (List.Perm.eq_nil (he ▸ h))
    apply le_antisymm
    · exact le_listMax l₂ _ (h.mem_iff.mp (listMax_mem l₁ hne))
    · exact le_listMax l₁ _ (h.mem_iff.mpr (listMax_mem l₂ hne2))

/-- When a result set yields no score at all, the analyzer reports zero
count, zero mean, zero max and the poor tier. -/
theorem analyze_no_scores (rs : ResultSet) (qa : SearchQuality)
    (hf : flattenScores rs = [])
    (h : analyze_search_quality rs = .ok qa) :
    qa.total_results = 0 ∧ qa.avg_score = 0 ∧ qa.max_score = 0 ∧ qa.quality = "poor" := by
  by_cases hrs : rs.isEmpty
  · simp [analyze_search_quality, hrs] at h
    subst h
    exact ⟨rfl, rfl, rfl, rfl⟩
  · have hfe : (flattenScores rs).isEmpty = true := by rw [hf]; rfl
    simp [analyze_search_quality, hrs, hfe] at h
    subst h
    exact ⟨rfl, rfl, rfl, rfl⟩

/-- When a result set yields scores and none of them is `None`, the analyzer
reports their count, mean and max, and the tier of the max. -/
theorem analyze_with_scores (rs : ResultSet) (qa : SearchQuality)
    (hf : flattenScores rs ≠ [])
    (hc : none ∉ flattenScores rs)
    (h : analyze_search_quality rs = .ok qa) :
    qa.total_results = (flattenScores rs).length ∧
    qa.avg_score = (flattenScores rs).reduceOption.sum / ((flattenScores rs).length : ℚ) ∧
    qa.max_score = listMax (flattenScores rs).reduceOption ∧
    qa.quality = tierOf (listMax (flattenScores rs).reduceOption) := by
  have hrs : rs.isEmpty = false := by
    cases rs with
    | nil => exact absurd rfl hf
    | cons _ _ => rfl
  have hfe : (flattenScores rs).isEmpty = false := by
    cases hl : flattenScores rs with
    | nil => exact absurd hl hf
    | cons _ _ => rfl
  simp [analyze_search_quality, hrs, hfe, hc] at h
  subst h
  exact ⟨rfl, rfl, rfl, rfl⟩

/-- Counterexample to claim C5 as stated: the result set mapping the plays
partition to an empty list has no scores at all, yet the analyzer reports
`collections_searched = 1`, so not all numeric fields are zero; by the same
input, `analyze` is not a function of the scores alone, since the empty
result set (same scores, namely none) reports `collections_searched = 0`. -/
theorem c5_no_scores_nonzero_field_cx :
    flattenScores [(PartitionKey.plays, [])] = [] ∧
    analyze_search_quality [(PartitionKey.plays, [])] =
      .ok { total_results := 0, avg_score := 0, max_score := 0,
            collections_searched := 1, quality := "poor" } ∧
    analyze_search_quality [] =
      .ok { total_results := 0, avg_score := 0, max_score := 0,
            collections_searched := 0, quality := "poor" } :=
  ⟨rfl, rfl, rfl⟩

/-- Claim C5 (amended): the analyzer's count, mean, max and tier are
determined by the result set's scores (invariant under permutations of the
flattened scores), while `collections_searched` equals the number of
partition keys; if no scores exist, count, mean and max are zero and the
tier is poor; otherwise the tier depends only on the maximum score through
the fixed breakpoints 0.5 / 0.3 / 0.1, and it is monotone in the maximum
score. -/
theorem c5_quality_analysis :
    (analyze_search_quality [] =
      .ok { total_results := 0, avg_score := 0, max_score := 0,
            collections_searched := 0, quality := "poor" }) ∧
    (∀ rs : ResultSet, rs ≠ [] → flattenScores rs = [] →
      analyze_search_quality rs =
        .ok { total_results := 0, avg_score := 0, max_score := 0,
              collections_searched := rs.length, quality := "poor" }) ∧
    (∀ rs qa, analyze_search_quality rs = .ok qa → qa.collections_searched = rs.length) ∧
    (∀ rs qa, analyze_search_quality rs = .ok qa → qa.quality = tierOf qa.max_score) ∧
    (∀ x y : ℚ, x ≤ y → tierRank (tierOf x) ≤ tierRank (tierOf y)) ∧
    (∀ (rs₁ rs₂ : ResultSet) (qa₁ qa₂ : SearchQuality),
      analyze_search_quality rs₁ = .ok qa₁ → analyze_search_quality rs₂ = .ok qa₂ →
      (flattenScores rs₁).Perm (flattenScores rs₂) →
      qa₁.total_results = qa₂.total_results ∧ qa₁.avg_score = qa₂.avg_score ∧
        qa₁.max_score = qa₂.max_score ∧ qa₁.quality = qa₂.quality) := by
  refine ⟨rfl, ?_, ?_, ?_, ?_, ?_⟩
  · intro rs hne hf
    have hrs : rs.isEmpty = false := by
      cases rs with
      | nil => exact absurd rfl hne
      | cons _ _ => rfl
    simp [analyze_search_quality, hrs, hf]
  · intro rs qa h
    rcases rs with _ | ⟨p, rest⟩
    · simp [analyze_search_quality] at h
      subst h; rfl
    · by_cases hfe : (flattenScores (p :: rest)).isEmpty
      · simp [analyze_search_quality, hfe] at h
        subst h; rfl
      · by_cases hc : none ∈ flattenScores (p :: rest)
        · simp [analyze_search_quality, hfe, hc] at h
        · simp [analyze_search_quality, hfe, hc] at h
          subst h; rfl
  · intro rs qa h
    rcases rs with _ | ⟨p, rest⟩
    · simp [analyze_search_quality] at h
      subst h
      exact (show "poor" = tierOf (0 : ℚ) by decide)
    · by_cases hfe : (flattenScores (p :: rest)).isEmpty
      · simp [analyze_search_quality, hfe] at h
        subst h
        exact (show "poor" = tierOf (0 : ℚ) by decide)
      · by_cases hc : none ∈ flattenScores (p :: rest)
        · simp [analyze_search_quality, hfe, hc] at h
        · simp [analyze_search_quality, hfe, hc] at h
          subst h; rfl
  · intro x y hxy
    unfold tierOf
    split_ifs <;> first | decide | linarith
  · intro rs₁ rs₂ qa₁ qa₂ h1 h2 hperm
    by_cases hf1 : flattenScores rs₁ = []
    · have hf2 : flattenScores rs₂ = [] := List.Perm.eq_nil (hf1 ▸ hperm).symm
      obtain ⟨t1, a1, m1, q1⟩ := analyze_no_scores rs₁ qa₁ hf1 h1
      obtain ⟨t2, a2, m2, q2⟩ := analyze_no_scores rs₂ qa₂ hf2 h2
      exact ⟨by rw [t1, t2], by rw [a1, a2], by rw [m1, m2], by rw [q1, q2]⟩
    · have hf2 : flattenScores rs₂ ≠ [] := fun he => hf1 (List.Perm.eq_nil (he ▸ hperm))
      by_cases hc1 : none ∈ flattenScores rs₁
      · have hrs : rs₁.isEmpty = false := by
          cases rs₁ with
          | nil => exact absurd rfl hf1
          | cons _ _ => rfl
        have hfe : (flattenScores rs₁).isEmpty = false := by
          cases hl : flattenScores rs₁ with
          | nil => exact absurd hl hf1
          | cons _ _ => rfl
        simp [analyze_search_quality, hrs, hfe, hc1] at h1
      · have hc2 : none ∉ flattenScores rs₂ := fun hm => hc1 (hperm.mem_iff.mpr hm)
        obtain ⟨t1, a1, m1, q1⟩ := analyze_with_scores rs₁ qa₁ hf1 hc1 h1
        obtain ⟨t2, a2, m2, q2⟩ := analyze_with_scores rs₂ qa₂ hf2 hc2 h2
        have hro : ((flattenScores rs₁).reduceOption).Perm
            ((flattenScores rs₂).reduceOption) := by
          simpa [List.reduceOption] using hperm.filterMap id
        have hlen := hperm.length_eq
        have hsum := hro.sum_eq
        have hmax := listMax_perm hro
        refine ⟨?_, ?_, ?_, ?_⟩
        · rw [t1, t2, hlen]
        · rw [a1, a2, hsum, hlen]
        · rw [m1, m2, hmax]
        · rw [q1, q2, hmax]

/-- Witness for C5 at concrete inputs: 0.3 ≤ 0.5 and the tier rank at 0.3 is
at most the tier rank at 0.5. -/
theorem c5_witness : tierRank (tierOf qThreeTenths) ≤ tierRank (tierOf qHalf) :=
  c5_quality_analysis.2.2.2.2.1 qThreeTenths qHalf (by decide)

/-- Context expansion never changes the match's score. -/
theorem add_play_context_score (db : List Props) (r : SResult) :
    (add_play_context db r).score = r.score := by
  rcases hs : r.properties.sequence_no with _ | seq
  · simp [add_play_context, hs]
  · by_cases hp : r.properties.play.getD "" = "" <;>
      simp [add_play_context, hs, hp]

/-- Context expansion never changes the match's properties. -/
theorem add_play_context_properties (db : List Props) (r : SResult) :
    (add_play_context db r).properties = r.properties := by
  rcases hs : r.properties.sequence_no with _ | seq
  · simp [add_play_context, hs]
  · by_cases hp : r.properties.play.getD "" = "" <;>
      simp [add_play_context, hs, hp]

/-- Context expansion never changes the match's distance. -/
theorem add_play_context_distance (db : List Props) (r : SResult) :
    (add_play_context db r).distance = r.distance := by
  rcases hs : r.properties.sequence_no with _ | seq
  · simp [add_play_context, hs]
  · by_cases hp : r.properties.play.getD "" = "" <;>
      simp [add_play_context, hs, hp]

/-- The optional context-enrichment step never changes the score. -/
theorem maybeAddContext_score (db : List Props) (cn : String) (r : SResult) :
    (maybeAddContext db cn r).score = r.score := by
  unfold maybeAddContext
  split_ifs
  · exact add_play_context_score db r
  · rfl

/-- When every fallback object carries a usable distance, the per-object
normalization of the whole batch succeeds and yields the distance-derived
scores. -/
theorem mapM_fallbackNormalize (objs : List RawObj)
    (h : ∀ o ∈ objs, (fbDistance o).isSome) :
    mapMFallback objs = some (objs.map (fun o =>
      { properties := o.properties,
        score := some (if (fbDistance o).getD 1 < 1 then 1 - (fbDistance o).getD 1 else 0),
        distance := some ((fbDistance o).getD 1), context := none })) := by
  induction objs with
  | nil => rfl
  | cons o os ih =>
    have ho := h o (List.mem_cons_self o os)
    rcases hfd : fbDistance o with _ | d
    · rw [hfd] at ho; cases ho
    · have hrest := ih (fun o' ho' => h o' (List.mem_cons_of_mem o ho'))
      simp [mapMFallback, fallbackNormalize, hfd, hrest]

/-- Counterexample to claim C7 as stated: on the retry path a backend
distance of −1 (possible under the dot-product metric) yields the score
`1 − (−1) = 2`, which is not clamped into `[0, 1]`. -/
theorem c7_negative_distance_cx :
    search_collection [] "ShakespeareSonnets" none (some [negDistObj]) =
      [{ properties := {}, score := some (1 - (-1 : ℚ)), distance := some (-1),
         context := none }] ∧
    ¬ ((1 - (-1 : ℚ)) ≤ 1) := by
  constructor
  · rfl
  · norm_num

/-- Claim C7 (amended): if the primary hybrid search fails, `search` retries
exactly once using vector-only search, deriving `score = 1 - distance` when
`distance < 1` and `0` otherwise (a value inside `[0, 1]` whenever the
distance is non-negative); if the retry also fails — including when a retry
object makes the score derivation raise — the search returns the empty list
rather than raising; when the primary search succeeds the retry response is
never consulted. -/
theorem c7_search_fallback (db : List Props) (cn : String) :
    (search_collection db cn none none = []) ∧
    (∀ objs, mapMFallback objs = none →
      search_collection db cn none (some objs) = []) ∧
    (∀ objs, (∀ o ∈ objs, (fbDistance o).isSome) →
      (search_collection db cn none (some objs)).map SResult.score =
        objs.map (fun o =>
          some (if (fbDistance o).getD 1 < 1 then 1 - (fbDistance o).getD 1 else 0))) ∧
    (∀ d : ℚ, 0 ≤ d →
      0 ≤ (if d < 1 then 1 - d else (0 : ℚ)) ∧ (if d < 1 then 1 - d else (0 : ℚ)) ≤ 1) ∧
    (∀ objs fb₁ fb₂,
      search_collection db cn (some objs) fb₁ = search_collection db cn (some objs) fb₂) := by
  refine ⟨rfl, ?_, ?_, ?_, ?_⟩
  · intro objs h
    simp [search_collection, h]
  · intro objs h
    simp [search_collection, mapM_fallbackNormalize objs h, List.map_map,
      Function.comp, maybeAddContext_score]
  · intro d hd
    constructor <;> split_ifs with h <;> linarith
  · intro objs fb₁ fb₂
    rfl

/-- Witness for C7 at a concrete input: the retry path derives the score of
the single returned object from its distance. -/
theorem c7_witness :
    (search_collection [] "ShakespeareSonnets" none (some [negDistObj])).map SResult.score =
      [negDistObj].map (fun o =>
        some (if (fbDistance o).getD 1 < 1 then 1 - (fbDistance o).getD 1 else 0)) :=
  (c7_search_fallback [] "ShakespeareSonnets").2.2.1 [negDistObj] (by decide)

/-- Every (context, citation) pair built by `entryFor` has the context of
the form `"From <citation>: <body>"`. -/
theorem entryFor_shape (k : PartitionKey) (r : SResult) (p : String × String)
    (h : entryFor k r = some p) : ∃ body, p.1 = "From " ++ p.2 ++ ": " ++ body := by
  obtain ⟨c, cit⟩ := p
  unfold entryFor at h
  by_cases hc : pyStrip (r.properties.content.getD "") = ""
  · simp [hc] at h
  · cases k <;> simp [hc] at h <;> exact ⟨_, by rw [← h.1, ← h.2]⟩

/-- Every assembled entry pairs a context of the form
`"From <citation>: <body>"` with its citation. -/
theorem contextEntries_shape (filtered : ResultSet) (e : String × String)
    (he : e ∈ contextEntries filtered) :
    ∃ body, e.1 = "From " ++ e.2 ++ ": " ++ body := by
  unfold contextEntries at he
  obtain ⟨p, _, he2⟩ := List.mem_flatMap.mp he
  obtain ⟨r, _, hsome⟩ := List.mem_filterMap.mp he2
  exact entryFor_shape p.1 r e hsome

/-- Claim C8: for every query and result set, the assembler returns two
lists — context passages and citations — of equal length, index-aligned so
that position `i` of each list describes the same Match (the context at `i`
embeds the citation at `i`). -/
theorem c8_parallel_lists (q : String) (rs : ResultSet) (c cit : List String)
    (h : build_context_from_results q rs = .ok (c, cit)) :
    c.length = cit.length ∧
    ∀ (i : Nat) (hi : i < c.length) (hj : i < cit.length),
      ∃ body, c.get ⟨i, hi⟩ = "From " ++ cit.get ⟨i, hj⟩ ++ ": " ++ body := by
  unfold build_context_from_results at h
  by_cases he : rs.isEmpty
  · rw [if_pos he] at h
    simp at h
    obtain ⟨h1, h2⟩ := h
    subst h1; subst h2
    refine ⟨rfl, ?_⟩
    intro i hi _
    exact absurd hi (by simp)
  · rw [if_neg he] at h
    cases hp : filterPhase rs with
    | error e => rw [hp] at h; simp at h
    | ok ft =>
      obtain ⟨filtered, totalGood⟩ := ft
      rw [hp] at h
      simp at h
      obtain ⟨h1, h2⟩ := h
      subst h1; subst h2
      refine ⟨by simp, ?_⟩
      intro i hi hj
      have hi' : i < (contextEntries
          (if totalGood = 0 then fallbackFiltered rs filtered else filtered)).length := by
        simpa using hi
      have hmem := List.get_mem (contextEntries
          (if totalGood = 0 then fallbackFiltered rs filtered else filtered)) i hi'
      obtain ⟨body, hb⟩ := contextEntries_shape _ _ hmem
      refine ⟨body, ?_⟩
      rw [List.get_map, List.get_map]
      exact hb

/-- Witness for C8 at a concrete input: the empty result set assembles into
two (empty) lists of equal length. -/
theorem c8_witness :
    ([] : List String).length = ([] : List String).length ∧
    ∀ (i : Nat) (hi : i < ([] : List String).length) (hj : i < ([] : List String).length),
      ∃ body, ([] : List String).get ⟨i, hi⟩ =
        "From " ++ ([] : List String).get ⟨i, hj⟩ ++ ": " ++ body :=
  c8_parallel_lists "q" [] [] [] rfl

/-- Inserting a fresh key into an insertion-ordered dict appends it. -/
theorem dictInsert_keys_of_not_mem {κ α : Type} [DecidableEq κ]
    (m : List (κ × α)) (k : κ) (v : α) (h : k ∉ m.map Prod.fst) :
    dictInsert m k v = m ++ [(k, v)] := by
  induction m with
  | nil => rfl
  | cons p rest ih =>
    obtain ⟨k', v'⟩ := p
    have hk : ¬ k' = k := by
      intro he; exact h (by simp [he])
    simp only [dictInsert, if_neg hk, List.cons_append, List.cons.injEq, true_and]
    exact ih (fun hm => h (by simp [hm]))

/-- Results that all sit at or below the threshold are all filtered out. -/
theorem filterGood_low (l : List SResult)
    (h : ∀ r ∈ l, r.score.isSome ∧ r.score.getD 1 ≤ qPointOne) :
    filterGood l = .ok [] := by
  induction l with
  | nil => rfl
  | cons r rest ih =>
    obtain ⟨hs, hle⟩ := h r (List.mem_cons_self r rest)
    rcases hr : r.score with _ | s
    · rw [hr] at hs; cases hs
    · have hrest := ih (fun r' h' => h r' (List.mem_cons_of_mem r h'))
      rw [hr] at hle
      simp only [Option.getD_some] at hle
      have hgt : ¬ s > qPointOne := not_lt.mpr hle
      simp [filterGood, hr, hrest, hgt]

/-- When every collection's filter leaves nothing, the filtering phase ends
with the empty dict and a zero count. -/
theorem filterPhase_all_empty (rs : ResultSet)
    (h : ∀ p ∈ rs, filterGood p.2 = .ok []) :
    filterPhase rs = .ok ([], 0) := by
  have hgen : ∀ (rs' : ResultSet) (acc : ResultSet × Nat),
      (∀ p ∈ rs', filterGood p.2 = .ok []) →
      rs'.foldlM filterStep acc = .ok acc := by
    intro rs'
    induction rs' with
    | nil => intro acc _; rfl
    | cons p rest ih =>
      intro acc h'
      have hp := h' p (List.mem_cons_self p rest)
      rw [List.foldlM_cons]
      have hstep : filterStep acc p = .ok (acc.1, acc.2 + 0) := by
        simp [filterStep, hp]
      rw [hstep]
      show rest.foldlM filterStep (acc.1, acc.2 + 0) = .ok acc
      have hacc : (acc.1, acc.2 + 0) = acc := by simp
      rw [hacc]
      exact ih acc (fun p' h'' => h' p' (List.mem_cons_of_mem p h''))
  exact hgen rs ([], 0) h

/-- When the dict keys of the result set are distinct and disjoint from the
accumulator's, the raw-top-2 fallback appends one entry per non-empty
collection, in order. -/
theorem fallbackFiltered_go (rs : ResultSet) : ∀ (acc : ResultSet),
    (rs.map Prod.fst).Nodup →
    (∀ k, k ∈ rs.map Prod.fst → k ∉ acc.map Prod.fst) →
    fallbackFiltered rs acc =
      acc ++ (rs.filter (fun p => !p.2.isEmpty)).map (fun p => (p.1, p.2.take 2)) := by
  induction rs with
  | nil => intro acc _ _; simp [fallbackFiltered]
  | cons p rest ih =>
    intro acc hnd hdisj
    obtain ⟨k, l⟩ := p
    have hndr : (rest.map Prod.fst).Nodup := (List.nodup_cons.mp hnd).2
    have hknr : k ∉ rest.map Prod.fst := (List.nodup_cons.mp hnd).1
    by_cases hl : l.isEmpty
    · have hl' : l = [] := List.isEmpty_iff.mp hl
      have hstep : fallbackFiltered (⟨k, l⟩ :: rest) acc = fallbackFiltered rest acc := by
        simp [fallbackFiltered, hl']
      rw [hstep,
        ih acc hndr (fun k' hk' => hdisj k' (List.mem_cons_of_mem _ hk'))]
      simp [List.filter_cons, hl]
    · have hl' : ¬ l = [] := fun he => hl (by simp [he])
      have hknacc : k ∉ acc.map Prod.fst := hdisj k (by simp)
      have hstep : fallbackFiltered (⟨k, l⟩ :: rest) acc =
          fallbackFiltered rest (dictInsert acc k (l.take 2)) := by
        simp [fallbackFiltered, hl']
      rw [hstep, dictInsert_keys_of_not_mem acc k (l.take 2) hknacc,
        ih (acc ++ [(k, l.take 2)]) hndr ?_]
      · simp [List.filter_cons, hl]
      · intro k' hk'
        simp only [List.map_append, List.mem_append]
        rintro (h | h)
        · exact hdisj k' (List.mem_cons_of_mem _ hk') h
        · simp at h
          exact hknr (h ▸ hk')

/-- An entry is produced for every match with non-blank content. -/
theorem entryFor_some_of_content (k : PartitionKey) (r : SResult)
    (h : pyStrip (r.properties.content.getD "") ≠ "") :
    ∃ e, entryFor k r = some e := by
  unfold entryFor
  rw [if_neg h]
  cases k <;> exact ⟨_, rfl⟩

/-- Counterexample to claim C3 as stated: a non-empty result set whose only
match has score 0.05 (all scores at or below 0.1) but blank content — the
fallback takes the raw match, yet the content gate then drops it, so the
assembler returns two empty lists rather than at least one passage. -/
theorem c3_blank_content_cx :
    blankLowResult.score = some qTwentieth ∧
    qTwentieth ≤ qPointOne ∧
    build_context_from_results "q" [(PartitionKey.plays, [blankLowResult])] =
      .ok ([], []) := by
  exact ⟨rfl, by decide, rfl⟩

/-- Claim C3 (amended): on a non-empty result set in which every match has a
(non-`None`) score at most 0.1, the assembler falls back to up to 2 raw top
matches per partition and returns at least one context passage, provided at
least one of those fallback matches has non-blank content (matches whose
stripped content is empty produce no passage). -/
theorem c3_low_score_fallback (q : String) (rs : ResultSet)
    (hnd : (rs.map Prod.fst).Nodup)
    (hlow : ∀ p ∈ rs, ∀ r ∈ p.2, r.score.isSome ∧ r.score.getD 1 ≤ qPointOne)
    (hcontent : ∃ p ∈ rs, ∃ r ∈ p.2.take 2, pyStrip (r.properties.content.getD "") ≠ "") :
    ∃ c cit, build_context_from_results q rs = .ok (c, cit) ∧ c ≠ [] ∧ cit ≠ [] := by
  obtain ⟨p, hp, r, hr2, hcon⟩ := hcontent
  obtain ⟨k, l⟩ := p
  have hre : rs.isEmpty = false := by
    cases rs with
    | nil => cases hp
    | cons _ _ => rfl
  have hfp : filterPhase rs = .ok ([], 0) :=
    filterPhase_all_empty rs (fun p' hp' => filterGood_low p'.2 (hlow p' hp'))
  have hff : fallbackFiltered rs [] =
      (rs.filter (fun p' => !p'.2.isEmpty)).map (fun p' => (p'.1, p'.2.take 2)) := by
    have := fallbackFiltered_go rs [] hnd (fun k' _ => by simp)
    simpa using this
  have hlne : ¬ l.isEmpty := by
    intro he
    rw [List.isEmpty_iff.mp he] at hr2
    cases hr2
  have hmemf : (k, l.take 2) ∈ fallbackFiltered rs [] := by
    rw [hff]
    exact List.mem_map.mpr ⟨(k, l), List.mem_filter.mpr ⟨hp, by simp [hlne]⟩, rfl⟩
  obtain ⟨e, he⟩ := entryFor_some_of_content k r hcon
  have hr3 : r ∈ (l.take 2).take 3 := by
    rw [List.take_take]
    exact hr2
  have hmeme : e ∈ contextEntries (fallbackFiltered rs []) :=
    List.mem_flatMap.mpr ⟨(k, l.take 2), hmemf,
      List.mem_filterMap.mpr ⟨r, hr3, he⟩⟩
  have hene : contextEntries (fallbackFiltered rs []) ≠ [] :=
    List.ne_nil_of_mem hmeme
  refine ⟨(contextEntries (fallbackFiltered rs [])).map Prod.fst,
          (contextEntries (fallbackFiltered rs [])).map Prod.snd, ?_, ?_, ?_⟩
  · simp [build_context_from_results, hre, hfp]
  · simpa using hene
  · simpa using hene

/-- Witness for C3 at a concrete input: a sonnets match with score 0.05 and
non-blank content yields a non-empty assembled context. -/
theorem c3_witness :
    ∃ c cit,
      build_context_from_results "love" [(PartitionKey.sonnets, [lowResult])] =
        .ok (c, cit) ∧ c ≠ [] ∧ cit ≠ [] :=
  c3_low_score_fallback "love" [(PartitionKey.sonnets, [lowResult])]
    (by decide) (by decide) (by decide)

/-- The chunk record built by `mkCtxChunk` carries the given sequence
number. -/
theorem mkCtxChunk_seq (c : Props) (n : Int) : (mkCtxChunk c n).sequence_no = n := rfl

/-- Splitting off the `< seq` guard of the preceding-chunk construction. -/
theorem filterMap_guard_lt (chunks : List Props) (seq : Int) :
    (chunks.filterMap (fun c =>
      match c.sequence_no with
      | some n => if n < seq then some (mkCtxChunk c n) else none
      | none => none)) =
    (chunks.filterMap (fun c =>
      match c.sequence_no with
      | some n => some (mkCtxChunk c n)
      | none => none)).filter (fun cc => decide (cc.sequence_no < seq)) := by
  induction chunks with
  | nil => rfl
  | cons c rest ih =>
    rcases hs : c.sequence_no with _ | n
    · simp only [List.filterMap_cons, hs, ih]
    · by_cases hlt : n < seq
      · simp [List.filterMap_cons, hs, hlt, List.filter_cons, ih, mkCtxChunk_seq]
      · simp [List.filterMap_cons, hs, hlt, List.filter_cons, ih, mkCtxChunk_seq]

/-- Splitting off the `> seq` guard of the following-chunk construction. -/
theorem filterMap_guard_gt (chunks : List Props) (seq : Int) :
    (chunks.filterMap (fun c =>
      match c.sequence_no with
      | some n => if seq < n then some (mkCtxChunk c n) else none
      | none => none)) =
    (chunks.filterMap (fun c =>
      match c.sequence_no with
      | some n => some (mkCtxChunk c n)
      | none => none)).filter (fun cc => decide (seq < cc.sequence_no)) := by
  induction chunks with
  | nil => rfl
  | cons c rest ih =>
    rcases hs : c.sequence_no with _ | n
    · simp only [List.filterMap_cons, hs, ih]
    · by_cases hlt : seq < n
      · simp [List.filterMap_cons, hs, hlt, List.filter_cons, ih, mkCtxChunk_seq]
      · simp [List.filterMap_cons, hs, hlt, List.filter_cons, ih, mkCtxChunk_seq]

/-- Claim C4: for a dramatic match carrying a sequence number and a parent
play, context expansion queries the range `[max(1, seq-5), seq+5]` (clamped
to 1 when `seq ≤ 5`), never places the matched sequence number in either
list, puts exactly the retrieved neighbors with smaller sequence number in
the preceding list and those with larger sequence number in the following
list, sorts both ascending, and otherwise returns the match unchanged. -/
theorem c4_context_window (db : List Props) (r : SResult) :
    ((r.properties.sequence_no = none ∨ r.properties.play.getD "" = "") →
      add_play_context db r = r) ∧
    (∀ seq, r.properties.sequence_no = some seq → r.properties.play.getD "" ≠ "" →
      (seq ≤ 5 → max 1 (seq - 5) = 1) ∧ ExpandedOk db r seq) := by
  constructor
  · rintro (h | h)
    · simp [add_play_context, h]
    · rcases hs : r.properties.sequence_no with _ | seq
      · simp [add_play_context, hs]
      · simp [add_play_context, hs, h]
  · intro seq hs hp
    refine ⟨fun h5 => by omega, ?_⟩
    have hadd : add_play_context db r =
        { r with context := some (
          { preceding_chunks := sortBySeq
              ((get_context_chunks db (r.properties.play.getD "")
                  (max 1 (seq - 5)) (seq + 5)).filterMap (fun c =>
                match c.sequence_no with
                | some n => if n < seq then some (mkCtxChunk c n) else none
                | none => none)),
            following_chunks := sortBySeq
              ((get_context_chunks db (r.properties.play.getD "")
                  (max 1 (seq - 5)) (seq + 5)).filterMap (fun c =>
                match c.sequence_no with
                | some n => if seq < n then some (mkCtxChunk c n) else none
                | none => none)),
            current_sequence_no := seq } : PlayContext) } := by
      simp [add_play_context, hs, hp]
    have hprec_eq := filterMap_guard_lt
      (get_context_chunks db (r.properties.play.getD "") (max 1 (seq - 5)) (seq + 5)) seq
    have hfoll_eq := filterMap_guard_gt
      (get_context_chunks db (r.properties.play.getD "") (max 1 (seq - 5)) (seq + 5)) seq
    have hcand : rangeCandidates db r seq =
        (get_context_chunks db (r.properties.play.getD "")
          (max 1 (seq - 5)) (seq + 5)).filterMap (fun c =>
            match c.sequence_no with
            | some n => some (mkCtxChunk c n)
            | none => none) := rfl
    have hpperm : (sortBySeq
        ((get_context_chunks db (r.properties.play.getD "")
            (max 1 (seq - 5)) (seq + 5)).filterMap (fun c =>
          match c.sequence_no with
          | some n => if n < seq then some (mkCtxChunk c n) else none
          | none => none))).Perm
        ((rangeCandidates db r seq).filter (fun c => decide (c.sequence_no < seq))) := by
      rw [hcand, ← hprec_eq]
      exact List.perm_insertionSort seqLe _
    have hfperm : (sortBySeq
        ((get_context_chunks db (r.properties.play.getD "")
            (max 1 (seq - 5)) (seq + 5)).filterMap (fun c =>
          match c.sequence_no with
          | some n => if seq < n then some (mkCtxChunk c n) else none
          | none => none))).Perm
        ((rangeCandidates db r seq).filter (fun c => decide (seq < c.sequence_no))) := by
      rw [hcand, ← hfoll_eq]
      exact List.perm_insertionSort seqLe _
    have hplt : ∀ c ∈ sortBySeq
        ((get_context_chunks db (r.properties.play.getD "")
            (max 1 (seq - 5)) (seq + 5)).filterMap (fun c =>
          match c.sequence_no with
          | some n => if n < seq then some (mkCtxChunk c n) else none
          | none => none)), c.sequence_no < seq := by
      intro c hc
      have hm := hpperm.mem_iff.mp hc
      have := List.mem_filter.mp hm
      exact of_decide_eq_true this.2
    have hfgt : ∀ c ∈ sortBySeq
        ((get_context_chunks db (r.properties.play.getD "")
            (max 1 (seq - 5)) (seq + 5)).filterMap (fun c =>
          match c.sequence_no with
          | some n => if seq < n then some (mkCtxChunk c n) else none
          | none => none)), seq < c.sequence_no := by
      intro c hc
      have hm := hfperm.mem_iff.mp hc
      have := List.mem_filter.mp hm
      exact of_decide_eq_true this.2
    refine ⟨_, by rw [hadd], add_play_context_properties db r,
      add_play_context_score db r, add_play_context_distance db r, rfl,
      hplt, hfgt,
      fun c hc => ne_of_lt (hplt c hc),
      fun c hc => ne_of_gt (hfgt c hc),
      hpperm, hfperm,
      List.sorted_insertionSort seqLe _,
      List.sorted_insertionSort seqLe _⟩

/-- Witness for C4 at the concrete scenario: the Hamlet passage with
sequence number 42 gets neighbors 38, 40 into the preceding list and 44, 46
into the following list, both ascending. -/
theorem c4_witness :
    ((42 : Int) ≤ 5 → max 1 ((42 : Int) - 5) = 1) ∧
      ExpandedOk hamletDb hamletMatch 42 :=
  (c4_context_window hamletDb hamletMatch).2 42 rfl (by decide)

/-- Overwriting an existing key keeps the dict's key list unchanged. -/
theorem dictInsert_keys_of_mem {κ α : Type} [DecidableEq κ]
    (m : List (κ × α)) (k : κ) (v : α) (h : k ∈ m.map Prod.fst) :
    (dictInsert m k v).map Prod.fst = m.map Prod.fst := by
  induction m with
  | nil => simp at h
  | cons p rest ih =>
    obtain ⟨k', v'⟩ := p
    by_cases hk : k' = k
    · subst hk; simp [dictInsert]
    · have h' : k ∈ rest.map Prod.fst := by
        rw [List.map_cons] at h
        rcases List.mem_cons.mp h with h1 | h1
        · exact absurd h1.symm hk
        · exact h1
      simp [dictInsert, hk, ih h']

/-- Every entry of a dict after an insertion is the inserted pair or one of
the old entries. -/
theorem mem_dictInsert_values {κ α : Type} [DecidableEq κ]
    (m : List (κ × α)) (k : κ) (v : α) (p : κ × α)
    (h : p ∈ dictInsert m k v) : p = (k, v) ∨ p ∈ m := by
  induction m with
  | nil =>
    simp [dictInsert] at h
    exact Or.inl h
  | cons q rest ih =>
    obtain ⟨k', v'⟩ := q
    by_cases hk : k' = k
    · simp [dictInsert, hk] at h
      rcases h with h | h
      · left; simp [h]
      · right; exact List.mem_cons_of_mem _ h
    · simp [dictInsert, hk] at h
      rcases h with h | h
      · right; simp [h]
      · rcases ih h with h' | h'
        · left; exact h'
        · right; exact List.mem_cons_of_mem _ h'

/-- Dict insertion preserves distinctness of the keys. -/
theorem nodup_keys_dictInsert {κ α : Type} [DecidableEq κ]
    (m : List (κ × α)) (k : κ) (v : α) (h : (m.map Prod.fst).Nodup) :
    ((dictInsert m k v).map Prod.fst).Nodup := by
  by_cases hm : k ∈ m.map Prod.fst
  · rw [dictInsert_keys_of_mem m k v hm]; exact h
  · rw [dictInsert_keys_of_not_mem m k v hm, List.map_append]
    rw [List.nodup_append]
    exact ⟨h, List.nodup_singleton k, fun a ha hb => by
      simp at hb; exact hm (hb ▸ ha)⟩

/-- Key membership after a dict insertion. -/
theorem mem_keys_dictInsert {κ α : Type} [DecidableEq κ]
    (m : List (κ × α)) (k : κ) (v : α) (k' : κ) :
    k' ∈ (dictInsert m k v).map Prod.fst ↔ k' = k ∨ k' ∈ m.map Prod.fst := by
  by_cases hm : k ∈ m.map Prod.fst
  · rw [dictInsert_keys_of_mem m k v hm]
    constructor
    · exact Or.inr
    · rintro (h | h)
      · exact h ▸ hm
      · exact h
  · rw [dictInsert_keys_of_not_mem m k v hm, List.map_append]
    simp [or_comm]

/-- Invariant of the `search_all_collections` loop: values stay non-empty,
keys stay distinct, and a key is present exactly when it was already present
or appears in the remaining key list with a non-empty search result. -/
theorem saFold_invariant (f : String → String → List SResult) (q : String)
    (kl : List PartitionKey) : ∀ acc : ResultSet,
    (∀ p ∈ acc, p.2 ≠ []) → ((acc.map Prod.fst).Nodup) →
    (∀ p ∈ kl.foldl (saStep f q) acc, p.2 ≠ []) ∧
    ((kl.foldl (saStep f q) acc).map Prod.fst).Nodup ∧
    (∀ k', k' ∈ (kl.foldl (saStep f q) acc).map Prod.fst ↔
      k' ∈ acc.map Prod.fst ∨ (k' ∈ kl ∧ f (className k') q ≠ [])) := by
  induction kl with
  | nil =>
    intro acc h1 h2
    exact ⟨h1, h2, fun k' => by simp⟩
  | cons k rest ih =>
    intro acc h1 h2
    rw [List.foldl_cons]
    by_cases hres : (f (className k) q).isEmpty
    · have hstep : saStep f q acc k = acc := by simp [saStep, hres]
      rw [hstep]
      obtain ⟨g1, g2, g3⟩ := ih acc h1 h2
      refine ⟨g1, g2, fun k' => ?_⟩
      rw [g3 k']
      constructor
      · rintro (h | ⟨hk, hf⟩)
        · exact Or.inl h
        · exact Or.inr ⟨List.mem_cons_of_mem _ hk, hf⟩
      · rintro (h | ⟨hk, hf⟩)
        · exact Or.inl h
        · rcases List.mem_cons.mp hk with h' | h'
          · subst h'
            exact absurd (List.isEmpty_iff.mp hres) hf
          · exact Or.inr ⟨h', hf⟩
    · have hstep : saStep f q acc k = dictInsert acc k (f (className k) q) := by
        simp [saStep, hres]
      rw [hstep]
      have hfne : f (className k) q ≠ [] := by
        intro he
        rw [he] at hres
        exact hres rfl
      have h1' : ∀ p ∈ dictInsert acc k (f (className k) q), p.2 ≠ [] := by
        intro p hp
        rcases mem_dictInsert_values acc k _ p hp with h | h
        · rw [h]; exact hfne
        · exact h1 p h
      have h2' := nodup_keys_dictInsert acc k (f (className k) q) h2
      obtain ⟨g1, g2, g3⟩ := ih (dictInsert acc k (f (className k) q)) h1' h2'
      refine ⟨g1, g2, fun k' => ?_⟩
      rw [g3 k', mem_keys_dictInsert]
      constructor
      · rintro ((h | h) | ⟨hk, hf⟩)
        · exact Or.inr ⟨h ▸ List.mem_cons_self k rest, h ▸ hfne⟩
        · exact Or.inl h
        · exact Or.inr ⟨List.mem_cons_of_mem _ hk, hf⟩
      · rintro (h | ⟨hk, hf⟩)
        · exact Or.inl (Or.inr h)
        · rcases List.mem_cons.mp hk with h' | h'
          · exact Or.inl (Or.inl h')
          · exact Or.inr ⟨h', hf⟩

/-- Invariant of the `search_relevant_collections` loop: as for
`saFold_invariant`, with unknown collection types skipped. -/
theorem srcFold_invariant (f : String → String → List SResult) (q : String)
    (types : List String) : ∀ acc : ResultSet,
    (∀ p ∈ acc, p.2 ≠ []) → ((acc.map Prod.fst).Nodup) →
    (∀ p ∈ types.foldl (srcStep f q) acc, p.2 ≠ []) ∧
    ((types.foldl (srcStep f q) acc).map Prod.fst).Nodup ∧
    (∀ k', k' ∈ (types.foldl (srcStep f q) acc).map Prod.fst ↔
      k' ∈ acc.map Prod.fst ∨
        ((∃ t ∈ types, parseKey t = some k') ∧ f (className k') q ≠ [])) := by
  induction types with
  | nil =>
    intro acc h1 h2
    exact ⟨h1, h2, fun k' => by simp⟩
  | cons t rest ih =>
    intro acc h1 h2
    rw [List.foldl_cons]
    rcases hp : parseKey t with _ | k
    · have hstep : srcStep f q acc t = acc := by simp [srcStep, hp]
      rw [hstep]
      obtain ⟨g1, g2, g3⟩ := ih acc h1 h2
      refine ⟨g1, g2, fun k' => ?_⟩
      rw [g3 k']
      constructor
      · rintro (h | ⟨⟨t', ht', hpt⟩, hf⟩)
        · exact Or.inl h
        · exact Or.inr ⟨⟨t', List.mem_cons_of_mem _ ht', hpt⟩, hf⟩
      · rintro (h | ⟨⟨t', ht', hpt⟩, hf⟩)
        · exact Or.inl h
        · rcases List.mem_cons.mp ht' with h' | h'
          · subst h'; rw [hp] at hpt; cases hpt
          · exact Or.inr ⟨⟨t', h', hpt⟩, hf⟩
    · by_cases hres : (f (className k) q).isEmpty
      · have hstep : srcStep f q acc t = acc := by simp [srcStep, saStep, hp, hres]
        rw [hstep]
        obtain ⟨g1, g2, g3⟩ := ih acc h1 h2
        refine ⟨g1, g2, fun k' => ?_⟩
        rw [g3 k']
        constructor
        · rintro (h | ⟨⟨t', ht', hpt⟩, hf⟩)
          · exact Or.inl h
          · exact Or.inr ⟨⟨t', List.mem_cons_of_mem _ ht', hpt⟩, hf⟩
        · rintro (h | ⟨⟨t', ht', hpt⟩, hf⟩)
          · exact Or.inl h
          · rcases List.mem_cons.mp ht' with h' | h'
            · subst h'
              rw [hp] at hpt
              have hk' : k' = k := (Option.some.inj hpt).symm
              subst hk'
              exact absurd (List.isEmpty_iff.mp hres) hf
            · exact Or.inr ⟨⟨t', h', hpt⟩, hf⟩
      · have hstep : srcStep f q acc t = dictInsert acc k (f (className k) q) := by
          simp [srcStep, saStep, hp, hres]
        rw [hstep]
        have hfne : f (className k) q ≠ [] := by
          intro he
          rw [he] at hres
          exact hres rfl
        have h1' : ∀ p ∈ dictInsert acc k (f (className k) q), p.2 ≠ [] := by
          intro p hpm
          rcases mem_dictInsert_values acc k _ p hpm with h | h
          · rw [h]; exact hfne
          · exact h1 p h
        have h2' := nodup_keys_dictInsert acc k (f (className k) q) h2
        obtain ⟨g1, g2, g3⟩ := ih (dictInsert acc k (f (className k) q)) h1' h2'
        refine ⟨g1, g2, fun k' => ?_⟩
        rw [g3 k', mem_keys_dictInsert]
        constructor
        · rintro ((h | h) | ⟨⟨t', ht', hpt⟩, hf⟩)
          · exact Or.inr ⟨⟨t, List.mem_cons_self t rest, h ▸ hp⟩, h ▸ hfne⟩
          · exact Or.inl h
          · exact Or.inr ⟨⟨t', List.mem_cons_of_mem _ ht', hpt⟩, hf⟩
        · rintro (h | ⟨⟨t', ht', hpt⟩, hf⟩)
          · exact Or.inl (Or.inr h)
          · rcases List.mem_cons.mp ht' with h' | h'
            · subst h'
              rw [hp] at hpt
              exact Or.inl (Or.inl (Option.some.inj hpt).symm)
            · exact Or.inr ⟨⟨t', h', hpt⟩, hf⟩

/-- The analyzer's partitions-searched count is the number of keys of the
result set it is given. -/
theorem analyze_cs_eq_length (rs : ResultSet) (qa : SearchQuality)
    (h : analyze_search_quality rs = .ok qa) :
    qa.collections_searched = rs.length := by
  rcases rs with _ | ⟨p, rest⟩
  · simp [analyze_search_quality] at h
    subst h; rfl
  · by_cases hfe : (flattenScores (p :: rest)).isEmpty
    · simp [analyze_search_quality, hfe] at h
      subst h; rfl
    · by_cases hc : none ∈ flattenScores (p :: rest)
      · simp [analyze_search_quality, hfe, hc] at h
      · simp [analyze_search_quality, hfe, hc] at h
        subst h; rfl

/-- Claim C10: every result set built by the multi-partition search
operations maps a partition key to a list only when that partition's search
returned at least one match — partitions with no matches are omitted
entirely — so the analyzer's partitions-searched count equals the number of
requested partitions that produced matches, not the number of partitions
actually queried. -/
theorem c10_result_set_omits_empty (searchFn : String → String → List SResult)
    (q : String) (types : List String) :
    (∀ p ∈ search_relevant_collections searchFn q types, p.2 ≠ []) ∧
    ((search_relevant_collections searchFn q types).map Prod.fst).Nodup ∧
    (∀ k, k ∈ (search_relevant_collections searchFn q types).map Prod.fst ↔
      ((∃ t ∈ types, parseKey t = some k) ∧ searchFn (className k) q ≠ [])) ∧
    (∀ qa, analyze_search_quality (search_relevant_collections searchFn q types) = .ok qa →
      qa.collections_searched =
        ((types.filterMap parseKey).toFinset.filter
          (fun k => searchFn (className k) q ≠ [])).card) ∧
    (∀ p ∈ search_all_collections searchFn q, p.2 ≠ []) ∧
    ((search_all_collections searchFn q).map Prod.fst).Nodup ∧
    (∀ k, k ∈ (search_all_collections searchFn q).map Prod.fst ↔
      searchFn (className k) q ≠ []) := by
  obtain ⟨g1, g2, g3⟩ :=
    srcFold_invariant searchFn q types [] (by simp) (by simp)
  obtain ⟨a1, a2, a3⟩ :=
    saFold_invariant searchFn q [PartitionKey.plays, PartitionKey.sonnets, PartitionKey.poems]
      [] (by simp) (by simp)
  have g3' : ∀ k, k ∈ (search_relevant_collections searchFn q types).map Prod.fst ↔
      ((∃ t ∈ types, parseKey t = some k) ∧ searchFn (className k) q ≠ []) := by
    intro k
    rw [search_relevant_collections, g3 k]
    simp
  refine ⟨g1, g2, g3', ?_, a1, a2, ?_⟩
  · intro qa hqa
    rw [analyze_cs_eq_length _ qa hqa]
    have hlen : (search_relevant_collections searchFn q types).length =
        ((search_relevant_collections searchFn q types).map Prod.fst).length :=
      (List.length_map _ _).symm
    have g2' : ((search_relevant_collections searchFn q types).map Prod.fst).Nodup := g2
    rw [hlen, ← List.toFinset_card_of_nodup g2']
    congr 1
    apply Finset.ext
    intro k
    rw [List.mem_toFinset, g3' k, Finset.mem_filter, List.mem_toFinset,
      List.mem_filterMap]
  · intro k
    rw [search_all_collections, a3 k]
    cases k <;> simp

/-- Witness for C10 at a concrete input: requesting the plays partition with
a backend that returns one match yields a mapped, non-empty list. -/
theorem c10_witness : ([goodResult] : List SResult) ≠ [] :=
  (c10_result_set_omits_empty constSearchFn "q" ["plays"]).1
    (PartitionKey.plays, [goodResult]) (by decide)
